import Mathlib

/-!
Verification of the sql-insight-engine saga core.

This file gives a shallow embedding, in Lean 4, of the parts of the
repository that the specification talks about:

* the recursive JSON sanitizer `sanitize_for_json`
  (apps/sql-insight-engine/src/agentic_sql/saga/utils.py);
* the Redis-backed saga state store `SagaStateStore`
  (apps/sql-insight-engine/src/agentic_sql/saga/state_store.py);
* the status endpoint `get_query_status`
  (apps/sql-insight-engine/src/agentic_sql/api.py);
* the out-of-scope classifier of the generate worker
  (apps/sql-insight-engine/src/agentic_sql/saga/consumers/query_generator_consumer.py);
* the side-effect order of the worker message handlers
  (query_generator_consumer.py, src/agentic_sql/saga/consumers/query_executor_consumer.py,
  result_formatter_consumer.py);
* the call-stack construction along the saga pipeline (messages.py, api.py);
* the MCP tool-call retry loop (apps/sql-insight-engine/src/core/mcp/client.py);
* the MCP capability registry (apps/mcp-registry/main.py).

Machine integers do not occur on the verified paths; times are modelled
as natural numbers of seconds, floats that only travel through the data
model as rationals.
-/

/-- Shallow model of the Python runtime values that flow through the saga
layer: JSON primitives, containers, tuples, objects carrying a `__dict__`
of fields, the Gemini `MapComposite` map type, and other objects (held as
their `str(...)` rendering). -/
inductive PyObj where
  | vStr (s : String)
  | vInt (n : Int)
  | vFloat (q : Rat)
  | vBool (b : Bool)
  | vNone
  | vList (xs : List PyObj)
  | vTuple (xs : List PyObj)
  | vDict (fields : List (String × PyObj))
  | vObj (fields : List (String × PyObj))
  | vMapComposite (fields : List (String × PyObj))
  | vOther (str : String)

mutual

/-- Embedding of `sanitize_for_json` (saga/utils.py, lines 9-29), branch by
branch and in the source's branch order: dicts recurse on values, lists and
tuples become lists, an object with `__dict__` is sanitized as the dict of
its fields, `MapComposite` is converted to a plain dict, every other
non-primitive is stringified, and primitives pass through. -/
def sanitizeForJson : PyObj → PyObj
  | .vDict fields => .vDict (sanitizeFields fields)
  | .vList xs => .vList (sanitizeItems xs)
  | .vTuple xs => .vList (sanitizeItems xs)
  | .vObj fields => .vDict (sanitizeFields fields)
  | .vMapComposite fields => .vDict (sanitizeFields fields)
  | .vOther s => .vStr s
  | .vStr s => .vStr s
  | .vInt n => .vInt n
  | .vFloat q => .vFloat q
  | .vBool b => .vBool b
  | .vNone => .vNone

/-- Sanitize each element of a Python list/tuple. -/
def sanitizeItems : List PyObj → List PyObj
  | [] => []
  | x :: xs => sanitizeForJson x :: sanitizeItems xs

/-- Sanitize each value of a Python dict. -/
def sanitizeFields : List (String × PyObj) → List (String × PyObj)
  | [] => []
  | (k, v) :: rest => (k, sanitizeForJson v) :: sanitizeFields rest

end

mutual

/-- The JSON-safe values: dicts, lists, strings, ints, floats, booleans and
None, with containers recursively JSON-safe (the target shape named by the
specification for persisted payloads). -/
def jsonSafe : PyObj → Bool
  | .vStr _ => true
  | .vInt _ => true
  | .vFloat _ => true
  | .vBool _ => true
  | .vNone => true
  | .vList xs => jsonSafeItems xs
  | .vDict fields => jsonSafeFields fields
  | .vTuple _ => false
  | .vObj _ => false
  | .vMapComposite _ => false
  | .vOther _ => false

/-- All elements of a list are JSON-safe. -/
def jsonSafeItems : List PyObj → Bool
  | [] => true
  | x :: xs => jsonSafe x && jsonSafeItems xs

/-- All values of a dict are JSON-safe. -/
def jsonSafeFields : List (String × PyObj) → Bool
  | [] => true
  | (_, v) :: rest => jsonSafe v && jsonSafeFields rest

end

theorem jsonSafeItems_of_forall {xs : List PyObj}
    (h : ∀ x ∈ xs, jsonSafe (sanitizeForJson x) = true) :
    jsonSafeItems (sanitizeItems xs) = true := by
  induction xs with
  | nil => rfl
  | cons x xs ih =>
      rw [sanitizeItems, jsonSafeItems]
      have hx := h x (by simp)
      have hrest := ih (fun y hy => h y (by simp [hy]))
      simp [hx, hrest]

theorem jsonSafeFields_of_forall {fs : List (String × PyObj)}
    (h : ∀ kv ∈ fs, jsonSafe (sanitizeForJson kv.2) = true) :
    jsonSafeFields (sanitizeFields fs) = true := by
  induction fs with
  | nil => rfl
  | cons kv fs ih =>
      obtain ⟨k, v⟩ := kv
      rw [sanitizeFields, jsonSafeFields]
      have hv := h (k, v) (by simp)
      have hrest := ih (fun y hy => h y (by simp [hy]))
      simp at hv
      simp [hv, hrest]

theorem sizeOf_snd_lt_of_mem_fields {fs : List (String × PyObj)}
    {kv : String × PyObj} (h : kv ∈ fs) : sizeOf kv.2 < sizeOf fs := by
  have h1 : sizeOf kv < sizeOf fs := List.sizeOf_lt_of_mem h
  have h2 : sizeOf kv.2 < sizeOf kv := by
    obtain ⟨k, v⟩ := kv
    show sizeOf v < sizeOf (k, v)
    have hs : sizeOf (k, v) = 1 + sizeOf k + sizeOf v := by simp
    omega
  omega

theorem jsonSafe_sanitizeForJson_bounded :
    ∀ n : Nat, ∀ v : PyObj, sizeOf v ≤ n → jsonSafe (sanitizeForJson v) = true := by
  intro n
  induction n with
  | zero =>
      intro v hv
      cases v <;> simp at hv
  | succ n ih =>
      intro v hv
      cases v with
      | vStr s => rfl
      | vInt m => rfl
      | vFloat q => rfl
      | vBool b => rfl
      | vNone => rfl
      | vOther s => rfl
      | vList xs =>
          rw [sanitizeForJson, jsonSafe]
          refine jsonSafeItems_of_forall (fun x hx => ih x ?_)
          have h1 : sizeOf x < sizeOf xs := List.sizeOf_lt_of_mem hx
          have h2 : sizeOf (PyObj.vList xs) = 1 + sizeOf xs := by simp
          omega
      | vTuple xs =>
          rw [sanitizeForJson, jsonSafe]
          refine jsonSafeItems_of_forall (fun x hx => ih x ?_)
          have h1 : sizeOf x < sizeOf xs := List.sizeOf_lt_of_mem hx
          have h2 : sizeOf (PyObj.vTuple xs) = 1 + sizeOf xs := by simp
          omega
      | vDict fs =>
          rw [sanitizeForJson, jsonSafe]
          refine jsonSafeFields_of_forall (fun kv hkv => ih kv.2 ?_)
          have h1 : sizeOf kv.2 < sizeOf fs := sizeOf_snd_lt_of_mem_fields hkv
          have h2 : sizeOf (PyObj.vDict fs) = 1 + sizeOf fs := by simp
          omega
      | vObj fs =>
          rw [sanitizeForJson, jsonSafe]
          refine jsonSafeFields_of_forall (fun kv hkv => ih kv.2 ?_)
          have h1 : sizeOf kv.2 < sizeOf fs := sizeOf_snd_lt_of_mem_fields hkv
          have h2 : sizeOf (PyObj.vObj fs) = 1 + sizeOf fs := by simp
          omega
      | vMapComposite fs =>
          rw [sanitizeForJson, jsonSafe]
          refine jsonSafeFields_of_forall (fun kv hkv => ih kv.2 ?_)
          have h1 : sizeOf kv.2 < sizeOf fs := sizeOf_snd_lt_of_mem_fields hkv
          have h2 : sizeOf (PyObj.vMapComposite fs) = 1 + sizeOf fs := by simp
          omega

theorem jsonSafe_sanitizeForJson (v : PyObj) :
    jsonSafe (sanitizeForJson v) = true :=
  jsonSafe_sanitizeForJson_bounded (sizeOf v) v (Nat.le_refl _)

/-- Embedding of the `call_data` record built by
`SagaBaseMessage.add_tool_call` (saga/messages.py, lines 42-54): args and
response pass through the sanitizer, the remaining fields are primitives. -/
def toolCallRecord (tool : String) (args response : PyObj)
    (durationMs : Rat) (status : String) (timestamp : String) : PyObj :=
  .vDict [("tool", .vStr tool),
          ("args", sanitizeForJson args),
          ("response", sanitizeForJson response),
          ("duration_ms", .vFloat durationMs),
          ("status", .vStr status),
          ("timestamp", .vStr timestamp)]

/-- ASCII lower-casing of one character, the fragment of Python `str.lower`
exercised by the classifier (all keywords are ASCII). -/
def asciiLowerChar (c : Char) : Char :=
  if 65 ≤ c.toNat && c.toNat ≤ 90 then Char.ofNat (c.toNat + 32) else c

/-- ASCII upper-casing of one character (fragment of Python `str.upper`). -/
def asciiUpperChar (c : Char) : Char :=
  if 97 ≤ c.toNat && c.toNat ≤ 122 then Char.ofNat (c.toNat - 32) else c

/-- Python `s.lower()` on ASCII text. -/
def pyLower (s : String) : String := String.mk (s.data.map asciiLowerChar)

/-- Python `s.upper()` on ASCII text. -/
def pyUpper (s : String) : String := String.mk (s.data.map asciiUpperChar)

/-- Whether `p` is a leading segment of `c`. -/
def startsWithChars : List Char → List Char → Bool
  | [], _ => true
  | _ :: _, [] => false
  | p :: ps, c :: cs => p == c && startsWithChars ps cs

/-- Whether `pat` occurs contiguously inside the character list. -/
def charListHas : List Char → List Char → Bool
  | [], pat => pat.isEmpty
  | c :: rest, pat => startsWithChars pat (c :: rest) || charListHas rest pat

/-- Python's substring test `pat in s`. -/
def strHasSub (s pat : String) : Bool := charListHas s.data pat.data

/-- The out-of-scope keyword list of the generate worker
(query_generator_consumer.py, lines 98-103), verbatim. -/
def outOfScopeKeywords : List String :=
  ["out of your business scope", "out of you bussiness scope",
   "not related to the", "cannot answer", "missing data",
   "not related to any available tables", "out of scope",
   "does not exist", "unable to find the table"]

/-- Check 1 of `run_agentic_sql_generation` (line 87): the upper-cased
DECISION field contains OUT_OF_SCOPE or IRRELEVANT. -/
def decisionOutOfScope (decisionRaw : String) : Bool :=
  strHasSub (pyUpper decisionRaw) "OUT_OF_SCOPE"
    || strHasSub (pyUpper decisionRaw) "IRRELEVANT"

/-- Python's `not sql or sql.upper() == "NONE"` (lines 90 and 106): the SQL
field is absent/empty or the literal NONE. -/
def noSqlProduced (sql : String) : Bool := sql.isEmpty || pyUpper sql == "NONE"

/-- Some keyword of the closed list occurs in the lower-cased response text
(line 104). -/
def keywordHit (fullText : String) : Bool :=
  outOfScopeKeywords.any (fun kw => strHasSub (pyLower fullText) kw)

/-- The classifier flag after checks 1 and 2 (lines 87-92): an explicitly
tagged decision, or no SQL produced. -/
def oosAfterSqlCheck (decisionRaw sql : String) : Bool :=
  if !decisionOutOfScope decisionRaw && noSqlProduced sql then true
  else decisionOutOfScope decisionRaw

/-- Embedding of the full out-of-scope classification of
`run_agentic_sql_generation` (query_generator_consumer.py, lines 82-108):
`decisionRaw` is the parsed DECISION field, `sql` the parsed
(fence-stripped) SQL field, `fullText` the raw LLM response text.
Check 3 (lines 104-107) fires when a keyword occurs and additionally
no SQL was produced or the text contains "cannot answer". -/
def isOutOfScope (decisionRaw sql fullText : String) : Bool :=
  if !oosAfterSqlCheck decisionRaw sql && keywordHit fullText then
    if noSqlProduced sql || strHasSub (pyLower fullText) "cannot answer" then true
    else oosAfterSqlCheck decisionRaw sql
  else oosAfterSqlCheck decisionRaw sql

/-- Modelled from the claim's words (spec §4.2, response parsing), for
comparison with the code's classifier: OutOfScope iff the DECISION tag
contains OUT_OF_SCOPE or IRRELEVANT, or no SQL was produced, or the text
contains a keyword of the closed four-element set and no SQL was
produced. -/
def specOutOfScope (decisionRaw sql fullText : String) : Bool :=
  decisionOutOfScope decisionRaw || noSqlProduced sql
    || (["out of scope", "cannot answer", "not related", "does not exist"].any
          (fun kw => strHasSub (pyLower fullText) kw) && noSqlProduced sql)

theorem keywordHit_of_cannotAnswer {t : String}
    (h : strHasSub (pyLower t) "cannot answer" = true) : keywordHit t = true := by
  unfold keywordHit
  exact List.any_eq_true.mpr ⟨"cannot answer", by simp [outOfScopeKeywords], h⟩

/-- Claim C3, counterexample: an LLM response whose text contains the
keyword "cannot answer" but which carries non-empty SQL and a RELEVANT
decision is classified OutOfScope by the code, while the claim's
classification (keyword only matters when no SQL was produced) says it is
not OutOfScope. -/
theorem outOfScope_keyword_with_sql_counterexample :
    isOutOfScope "RELEVANT" "SELECT 1"
        "I cannot answer this exactly, but the closest query is below." = true
      ∧ specOutOfScope "RELEVANT" "SELECT 1"
        "I cannot answer this exactly, but the closest query is below." = false := by
  decide

/-- Claim C3, amended: the generate worker classifies a response OutOfScope
iff the upper-cased DECISION contains OUT_OF_SCOPE or IRRELEVANT, or no SQL
was produced (empty or the literal NONE), or the lower-cased response text
contains "cannot answer" — the latter regardless of whether SQL was
produced; keywords of the (nine-element) list other than "cannot answer"
matter only when no SQL was produced, in which case the no-SQL rule already
classifies the response OutOfScope. -/
theorem outOfScope_classification_amended (d s t : String) :
    isOutOfScope d s t =
      (decisionOutOfScope d || noSqlProduced s
        || strHasSub (pyLower t) "cannot answer") := by
  have hck := @keywordHit_of_cannotAnswer t
  unfold isOutOfScope oosAfterSqlCheck
  cases ha : decisionOutOfScope d <;>
    cases hn : noSqlProduced s <;>
      cases hc : strHasSub (pyLower t) "cannot answer" <;>
        cases hk : keywordHit t <;> simp_all

/-- One saga record as serialized by the state store: the `result` dict,
the `timestamp` of the last write, the optional `started_at` stamp and the
`status` string (state_store.py). Timestamps are modelled as seconds. -/
structure SagaData where
  result : List (String × PyObj)
  timestamp : Nat
  started_at : Option Nat
  status : String

/-- The Redis keyspace used by the state store: saga id (the Python key is
the string `saga:` followed by the id) mapped to the record paired with its
absolute expiry time as set by SETEX. -/
abbrev SagaStore := List (String × SagaData × Nat)

/-- First binding for a key, mirroring the single-valued Redis keyspace. -/
def storeFind : SagaStore → String → Option (SagaData × Nat)
  | [], _ => none
  | (k, v) :: rest, id => if k == id then some v else storeFind rest id

/-- Overwrite-or-insert a binding, mirroring Redis SET semantics. -/
def storeSet : SagaStore → String → SagaData × Nat → SagaStore
  | [], id, v => [(id, v)]
  | (k, w) :: rest, id, v =>
      if k == id then (id, v) :: rest else (k, w) :: storeSet rest id v

/-- Delete a binding, mirroring Redis DEL. -/
def storeDelete : SagaStore → String → SagaStore
  | [], _ => []
  | (k, w) :: rest, id => if k == id then rest else (k, w) :: storeDelete rest id

/-- The TTL applied by every write of `SagaStateStore`
(state_store.py, line 47: `self._ttl_seconds = 3600`). -/
def ttlSeconds : Nat := 3600

/-- Redis GET at absolute time `now`: a key is visible while `now` is
strictly below its expiry time. -/
def redisGet (st : SagaStore) (id : String) (now : Nat) : Option SagaData :=
  match storeFind st id with
  | some (d, expiry) => if now < expiry then some d else none
  | none => none

/-- Redis SETEX: bind the key to the value with expiry `now + ttl`. -/
def redisSetex (st : SagaStore) (id : String) (ttl : Nat) (d : SagaData)
    (now : Nat) : SagaStore :=
  storeSet st id (d, now + ttl)

/-- First binding for a key of a Python dict. -/
def dictFind : List (String × PyObj) → String → Option PyObj
  | [], _ => none
  | (k, v) :: rest, key => if k == key then some v else dictFind rest key

/-- Python `d.get(key, default)`. -/
def dictGetD (fs : List (String × PyObj)) (key : String) (dflt : PyObj) : PyObj :=
  (dictFind fs key).getD dflt

/-- Python `key in d`. -/
def dictContains (fs : List (String × PyObj)) (key : String) : Bool :=
  (dictFind fs key).isSome

/-- Python `d.update(patch)`: values of existing keys are replaced, new
keys are appended in patch order. -/
def dictUpdate (d patch : List (String × PyObj)) : List (String × PyObj) :=
  d.map (fun kv =>
      match dictFind patch kv.1 with
      | some v => (kv.1, v)
      | none => kv)
    ++ patch.filter (fun kv => !(dictContains d kv.1))

/-- Python truthiness of the modelled values, as used by
`result.get("success", False)` in `store_result` and by the `if status:`
and `and result` guards. -/
def pyTruthy : PyObj → Bool
  | .vStr s => !s.isEmpty
  | .vInt n => n != 0
  | .vFloat q => q != 0
  | .vBool b => b
  | .vNone => false
  | .vList xs => !xs.isEmpty
  | .vTuple xs => !xs.isEmpty
  | .vDict fs => !fs.isEmpty
  | .vObj _ => true
  | .vMapComposite fs => !fs.isEmpty
  | .vOther _ => true

/-- Embedding of `SagaStateStore.mark_pending` (state_store.py, lines
105-114): create the record with both timestamps set to now, status
pending, TTL 3600 s. -/
def markPending (st : SagaStore) (id : String)
    (initial : List (String × PyObj)) (now : Nat) : SagaStore :=
  redisSetex st id ttlSeconds
    { result := initial, timestamp := now, started_at := some now,
      status := "pending" } now

/-- The status `store_result` computes when none is passed (line 64):
completed when `result.get("success", False)` is truthy, else error. -/
def defaultFinalStatus (result : List (String × PyObj)) : String :=
  if pyTruthy (dictGetD result "success" (.vBool false)) then "completed"
  else "error"

/-- Python `status if status else (...)` of `store_result` (line 64): a
passed falsy (empty) status falls back to the computed one. -/
def finalStatusOf (result : List (String × PyObj)) : Option String → String
  | some s => if s.isEmpty then defaultFinalStatus result else s
  | none => defaultFinalStatus result

/-- Embedding of `SagaStateStore.store_result` (state_store.py, lines
63-87): overwrite the record with the given result and final status,
preserving `started_at` from a still-readable existing record, and refresh
the TTL. Metrics emission is a pure side effect and is not modelled. -/
def storeResult (st : SagaStore) (id : String)
    (result : List (String × PyObj)) (status : Option String)
    (now : Nat) : SagaStore :=
  redisSetex st id ttlSeconds
    { result := result, timestamp := now,
      started_at := (redisGet st id now).bind (fun d => d.started_at),
      status := finalStatusOf result status } now

/-- Embedding of `SagaStateStore.update_result` (state_store.py, lines
116-128): read-modify-write merging the patch into `result`, refreshing
`timestamp` and the TTL, transitioning `status` only when a truthy status
is passed; a no-op when the record is absent or expired. -/
def updateResult (st : SagaStore) (id : String)
    (patch : List (String × PyObj)) (status : Option String)
    (now : Nat) : SagaStore :=
  match redisGet st id now with
  | none => st
  | some d =>
      redisSetex st id ttlSeconds
        { d with
            result := dictUpdate d.result patch,
            timestamp := now,
            status := match status with
              | some s => if s.isEmpty then d.status else s
              | none => d.status } now

/-- Embedding of `SagaStateStore.get_status` (lines 97-103): pending when
the record is absent or expired. -/
def getStatus (st : SagaStore) (id : String) (now : Nat) : String :=
  match redisGet st id now with
  | none => "pending"
  | some d => d.status

/-- Embedding of `SagaStateStore.get_result` (lines 89-95). -/
def getResult (st : SagaStore) (id : String) (now : Nat) :
    Option (List (String × PyObj)) :=
  (redisGet st id now).map (fun d => d.result)

/-- Embedding of `SagaStateStore.clear_result` (lines 130-132). -/
def clearResult (st : SagaStore) (id : String) : SagaStore :=
  storeDelete st id

/-- Response shape of the status endpoint (api.py, lines 24-28). The
`message` field is kept as a modelled Python value so that the dict lookup
in the error branch stays faithful. -/
structure QueryStatusResponse where
  saga_id : String
  status : String
  result : Option (List (String × PyObj))
  message : Option PyObj

/-- Python truthiness of `result` in `get_query_status`: None and the
empty dict are falsy. -/
def optDictTruthy : Option (List (String × PyObj)) → Bool
  | none => false
  | some r => !r.isEmpty

/-- Embedding of `get_query_status` (api.py, lines 135-167), after the user
lookup: read status and result from the state store; report completed or
error only when the status says so and the result is truthy, otherwise
report pending. -/
def getQueryStatus (st : SagaStore) (sagaId : String) (now : Nat) :
    QueryStatusResponse :=
  let status := getStatus st sagaId now
  let result := getResult st sagaId now
  if status == "completed" && optDictTruthy result then
    { saga_id := sagaId, status := "completed", result := result,
      message := some (.vStr "Query completed successfully") }
  else if status == "error" && optDictTruthy result then
    { saga_id := sagaId, status := "error", result := result,
      message := some (dictGetD (result.getD []) "error_message"
        (.vStr "Query processing failed")) }
  else
    { saga_id := sagaId, status := "pending", result := result,
      message := some (.vStr "Query is still being processed") }

/-- Claim C10: for a saga id with no readable record (never created,
expired, or cleared), `get_status` returns pending and `get_result`
returns None, and the status endpoint reports pending; concretely, a saga
that reached `completed` at time 0 is reported pending again once its
record has expired. -/
theorem missing_record_reports_pending :
    (∀ (st : SagaStore) (id : String) (now : Nat),
        redisGet st id now = none →
          getStatus st id now = "pending" ∧ getResult st id now = none ∧
            (getQueryStatus st id now).status = "pending")
    ∧ getStatus (storeResult [] "s1" [("success", PyObj.vBool true)] none 0)
        "s1" 100 = "completed"
    ∧ (getQueryStatus (storeResult [] "s1" [("success", PyObj.vBool true)] none 0)
        "s1" 3601).status = "pending"
    ∧ getResult (storeResult [] "s1" [("success", PyObj.vBool true)] none 0)
        "s1" 3601 = none := by
  refine ⟨fun st id now h => ?_, by rfl, by rfl, by rfl⟩
  simp [getStatus, getResult, getQueryStatus, h, optDictTruthy]

/-- Witness for the hypothesis of `missing_record_reports_pending`,
instantiated at the empty store. -/
theorem missing_record_reports_pending_witness :
    getStatus [] "unknown-saga" 0 = "pending" ∧
      getResult [] "unknown-saga" 0 = none ∧
      (getQueryStatus [] "unknown-saga" 0).status = "pending" :=
  missing_record_reports_pending.1 [] "unknown-saga" 0 rfl

theorem storeFind_storeSet_self (st : SagaStore) (k : String) (v : SagaData × Nat) :
    storeFind (storeSet st k v) k = some v := by
  induction st with
  | nil => simp [storeSet, storeFind]
  | cons kv rest ih =>
      obtain ⟨k', w⟩ := kv
      by_cases h : k' = k
      · simp [storeSet, storeFind, h]
      · have hb : (k' == k) = false := by simp [h]
        simp [storeSet, storeFind, hb, ih]

theorem mem_of_storeFind {st : SagaStore} {id : String} {v : SagaData × Nat}
    (h : storeFind st id = some v) : (id, v) ∈ st := by
  induction st with
  | nil => simp [storeFind] at h
  | cons kv rest ih =>
      obtain ⟨k, w⟩ := kv
      by_cases hk : k = id
      · subst hk
        simp [storeFind] at h
        simp [h]
      · have hb : (k == id) = false := by simp [hk]
        simp [storeFind, hb] at h
        simp [ih h]

theorem mem_storeSet {st : SagaStore} {k : String} {v : SagaData × Nat}
    {x : String × SagaData × Nat} (h : x ∈ storeSet st k v) :
    x ∈ st ∨ x = (k, v) := by
  induction st with
  | nil => simp [storeSet] at h; simp [h]
  | cons kv rest ih =>
      obtain ⟨k', w⟩ := kv
      by_cases hk : k' = k
      · simp [storeSet, hk] at h
        rcases h with h | h
        · right; simp [h]
        · left; simp [h]
      · have hb : (k' == k) = false := by simp [hk]
        simp [storeSet, hb] at h
        rcases h with h | h
        · left; simp [h]
        · rcases ih h with h' | h'
          · left; simp [h']
          · right; exact h'

theorem mem_storeDelete {st : SagaStore} {id : String}
    {x : String × SagaData × Nat} (h : x ∈ storeDelete st id) : x ∈ st := by
  induction st with
  | nil => simp [storeDelete] at h
  | cons kv rest ih =>
      obtain ⟨k, w⟩ := kv
      by_cases hk : k = id
      · simp [storeDelete, hk] at h
        simp [h]
      · have hb : (k == id) = false := by simp [hk]
        simp [storeDelete, hb] at h
        rcases h with h | h
        · simp [h]
        · simp [ih h]

/-- The operations the repository performs against the saga state store,
stamped with the absolute time at which they run. -/
inductive StoreOp where
  | opMarkPending (id : String) (initial : List (String × PyObj)) (time : Nat)
  | opStoreResult (id : String) (result : List (String × PyObj))
      (status : Option String) (time : Nat)
  | opUpdateResult (id : String) (patch : List (String × PyObj))
      (status : Option String) (time : Nat)
  | opClearResult (id : String) (time : Nat)

/-- The saga id an operation addresses. -/
def StoreOp.key : StoreOp → String
  | .opMarkPending id _ _ => id
  | .opStoreResult id _ _ _ => id
  | .opUpdateResult id _ _ _ => id
  | .opClearResult id _ => id

/-- The absolute time at which an operation runs. -/
def StoreOp.time : StoreOp → Nat
  | .opMarkPending _ _ t => t
  | .opStoreResult _ _ _ t => t
  | .opUpdateResult _ _ _ t => t
  | .opClearResult _ t => t

/-- Interpret one state-store operation. -/
def applyStoreOp (st : SagaStore) : StoreOp → SagaStore
  | .opMarkPending id ini t => markPending st id ini t
  | .opStoreResult id r s t => storeResult st id r s t
  | .opUpdateResult id p s t => updateResult st id p s t
  | .opClearResult id _ => clearResult st id

/-- Interpret a time-ordered sequence of state-store operations, starting
from the empty keyspace. -/
def runStoreOps (ops : List StoreOp) : SagaStore :=
  ops.foldl applyStoreOp []

/-- Every binding for `id` present after one operation either was present
before it, or carries expiry `op.time + ttlSeconds`. -/
theorem expiry_after_applyStoreOp {st : SagaStore} (op : StoreOp)
    {k : String} {d : SagaData} {e : Nat}
    (h : (k, d, e) ∈ applyStoreOp st op) :
    (k, d, e) ∈ st ∨ (k = op.key ∧ e = op.time + ttlSeconds) := by
  cases op with
  | opMarkPending id ini t =>
      rcases mem_storeSet h with h' | h'
      · exact Or.inl h'
      · right
        simp [StoreOp.key, StoreOp.time]
        constructor
        · exact congrArg Prod.fst h'
        · have := congrArg (fun x => x.2.2) h'
          simpa using this
  | opStoreResult id r s t =>
      rcases mem_storeSet h with h' | h'
      · exact Or.inl h'
      · right
        simp [StoreOp.key, StoreOp.time]
        constructor
        · exact congrArg Prod.fst h'
        · have := congrArg (fun x => x.2.2) h'
          simpa using this
  | opUpdateResult id p s t =>
      have h2 : (k, d, e) ∈ updateResult st id p s t := h
      rw [updateResult] at h2
      cases hg : redisGet st id t with
      | none => rw [hg] at h2; exact Or.inl h2
      | some dd =>
          rw [hg] at h2
          rcases mem_storeSet h2 with h' | h'
          · exact Or.inl h'
          · right
            simp [StoreOp.key, StoreOp.time]
            constructor
            · exact congrArg Prod.fst h'
            · have := congrArg (fun x => x.2.2) h'
              simpa using this
  | opClearResult id t =>
      exact Or.inl (mem_storeDelete h)

theorem expiry_bound_foldl {id : String} {t : Nat} :
    ∀ (ops : List StoreOp) (st : SagaStore),
      (∀ op ∈ ops, StoreOp.key op = id → StoreOp.time op ≤ t) →
      (∀ d e, (id, d, e) ∈ st → e ≤ t + ttlSeconds) →
      ∀ d e, (id, d, e) ∈ ops.foldl applyStoreOp st → e ≤ t + ttlSeconds := by
  intro ops
  induction ops with
  | nil => intro st _ hst d e hmem; exact hst d e hmem
  | cons op ops ih =>
      intro st hops hst d e hmem
      have hop : StoreOp.key op = id → StoreOp.time op ≤ t := hops op (by simp)
      refine ih (applyStoreOp st op) (fun o ho hk => hops o (by simp [ho]) hk) ?_ d e hmem
      intro d' e' hmem'
      rcases expiry_after_applyStoreOp op hmem' with h' | ⟨hk, he⟩
      · exact hst d' e' h'
      · have ht := hop hk.symm
        omega

/-- Claim C7: every state-store write (`mark_pending`, `store_result`, and a
`update_result` that found a readable record) arms the record with expiry
exactly `now + 3600` seconds, and consequently, over any time-ordered
sequence of state-store operations whose writes to a saga all happen no
later than time `t`, the saga has no readable record — status reads as
pending and the result as None — at any time from `t + 3600` on. -/
theorem state_store_ttl_bound :
    (∀ (st : SagaStore) (id : String) (ini : List (String × PyObj)) (now : Nat),
        (storeFind (markPending st id ini now) id).map Prod.snd
          = some (now + ttlSeconds))
    ∧ (∀ (st : SagaStore) (id : String) (r : List (String × PyObj))
          (s : Option String) (now : Nat),
        (storeFind (storeResult st id r s now) id).map Prod.snd
          = some (now + ttlSeconds))
    ∧ (∀ (st : SagaStore) (id : String) (p : List (String × PyObj))
          (s : Option String) (now : Nat),
        (redisGet st id now).isSome = true →
          (storeFind (updateResult st id p s now) id).map Prod.snd
            = some (now + ttlSeconds))
    ∧ (∀ (ops : List StoreOp) (id : String) (t : Nat),
        (∀ op ∈ ops, StoreOp.key op = id → StoreOp.time op ≤ t) →
        ∀ now, t + ttlSeconds ≤ now →
          redisGet (runStoreOps ops) id now = none ∧
          getStatus (runStoreOps ops) id now = "pending" ∧
          getResult (runStoreOps ops) id now = none) := by
  refine ⟨?_, ?_, ?_, ?_⟩
  · intro st id ini now
    simp [markPending, redisSetex, storeFind_storeSet_self]
  · intro st id r s now
    simp [storeResult, redisSetex, storeFind_storeSet_self]
  · intro st id p s now hsome
    unfold updateResult
    cases hg : redisGet st id now with
    | none => rw [hg] at hsome; simp at hsome
    | some d => simp [redisSetex, storeFind_storeSet_self]
  · intro ops id t hops now hnow
    have hbound := expiry_bound_foldl ops [] hops
      (by intro d e hmem; simp at hmem)
    have hget : redisGet (runStoreOps ops) id now = none := by
      unfold redisGet
      cases hf : storeFind (runStoreOps ops) id with
      | none => rfl
      | some v =>
          obtain ⟨d, e⟩ := v
          have hmem := mem_of_storeFind hf
          have he : e ≤ t + ttlSeconds := hbound d e hmem
          have hlt : ¬ (now < e) := by omega
          simp [hlt]
    exact ⟨hget, by simp [getStatus, hget], by simp [getResult, hget]⟩

/-- Witness for `state_store_ttl_bound`: a saga written at times 5, 10 and
20 has no readable record at time 3621. -/
theorem state_store_ttl_bound_witness :
    redisGet (runStoreOps
        [StoreOp.opMarkPending "s" [] 5,
         StoreOp.opUpdateResult "s" [("step", PyObj.vStr "generate")] none 10,
         StoreOp.opStoreResult "s" [("success", PyObj.vBool true)] none 20])
        "s" 3621 = none ∧
      getStatus (runStoreOps
        [StoreOp.opMarkPending "s" [] 5,
         StoreOp.opUpdateResult "s" [("step", PyObj.vStr "generate")] none 10,
         StoreOp.opStoreResult "s" [("success", PyObj.vBool true)] none 20])
        "s" 3621 = "pending" ∧
      getResult (runStoreOps
        [StoreOp.opMarkPending "s" [] 5,
         StoreOp.opUpdateResult "s" [("step", PyObj.vStr "generate")] none 10,
         StoreOp.opStoreResult "s" [("success", PyObj.vBool true)] none 20])
        "s" 3621 = none :=
  state_store_ttl_bound.2.2.2
    [StoreOp.opMarkPending "s" [] 5,
     StoreOp.opUpdateResult "s" [("step", PyObj.vStr "generate")] none 10,
     StoreOp.opStoreResult "s" [("success", PyObj.vBool true)] none 20]
    "s" 20 (by decide) 3621 (by decide)

/-- Claim C9: `sanitize_for_json` always returns a JSON-safe value (only
dicts, lists, strings, ints, floats, booleans and None), tuples become
lists, objects with a `__dict__` become dicts of their sanitized fields,
and every ToolCall record built by `add_tool_call` is JSON-safe. -/
theorem sanitize_for_json_safe :
    (∀ v : PyObj, jsonSafe (sanitizeForJson v) = true)
    ∧ (∀ xs : List PyObj,
        sanitizeForJson (.vTuple xs) = .vList (sanitizeItems xs))
    ∧ (∀ fs : List (String × PyObj),
        sanitizeForJson (.vObj fs) = .vDict (sanitizeFields fs))
    ∧ (∀ (tool : String) (args response : PyObj) (durationMs : Rat)
          (status timestamp : String),
        jsonSafe (toolCallRecord tool args response durationMs status timestamp)
          = true) := by
  refine ⟨jsonSafe_sanitizeForJson, fun xs => rfl, fun fs => rfl, ?_⟩
  intro tool args response durationMs status timestamp
  simp [toolCallRecord, jsonSafe, jsonSafeFields,
    jsonSafe_sanitizeForJson args, jsonSafe_sanitizeForJson response]

/-- The state-store operations a step worker performs on an already
submitted saga: `update_result` (via `update_saga_state` in saga/utils.py)
and `store_result` (via `store_saga_error` or directly), time-stamped. -/
inductive WorkerOp where
  | wUpdate (patch : List (String × PyObj)) (status : Option String) (time : Nat)
  | wStore (result : List (String × PyObj)) (status : Option String) (time : Nat)

/-- The status argument the worker passes to the state store. -/
def WorkerOp.statusArg : WorkerOp → Option String
  | .wUpdate _ s _ => s
  | .wStore _ s _ => s

/-- The status value the operation stores: an update stores its
status argument when truthy, a store always stores the final status
computed by `store_result`. -/
def WorkerOp.writtenStatus : WorkerOp → Option String
  | .wUpdate _ s _ => s
  | .wStore r s _ => some (finalStatusOf r s)

/-- Interpret one worker operation against saga `id`. -/
def applyWorkerOp (id : String) (st : SagaStore) : WorkerOp → SagaStore
  | .wUpdate p s t => updateResult st id p s t
  | .wStore r s t => storeResult st id r s t

/-- The status arguments the repository's callers actually pass to
`update_result` and `store_result`: None for progress updates, "completed"
in the result formatter, "error" in `store_saga_error`. -/
def callerStatus (s : Option String) : Prop :=
  s = none ∨ s = some "completed" ∨ s = some "error"

/-- The physically stored status of a saga, regardless of expiry. -/
def physStatus (id : String) (st : SagaStore) : Option String :=
  (storeFind st id).map (fun v => v.1.status)

/-- All intermediate stores of a run, including the starting one. -/
def statesFrom (id : String) (st : SagaStore) : List WorkerOp → List SagaStore
  | [] => [st]
  | op :: ops => st :: statesFrom id (applyWorkerOp id st op) ops

/-- The stored status of saga `id` at submission (`mark_pending` at time
`t0` on a fresh id) and after each subsequent worker operation. -/
def sagaStatusTrace (id : String) (initial : List (String × PyObj))
    (t0 : Nat) (ops : List WorkerOp) : List (Option String) :=
  (statesFrom id (markPending [] id initial t0) ops).map (physStatus id)

/-- The two terminal saga statuses. -/
def isTerminal (s : String) : Bool := s == "completed" || s == "error"

theorem physStatus_of_redisGet {st : SagaStore} {id : String} {t : Nat}
    {d : SagaData} (h : redisGet st id t = some d) :
    physStatus id st = some d.status := by
  unfold redisGet at h
  cases hf : storeFind st id with
  | none => rw [hf] at h; exact absurd h (by simp)
  | some v =>
      obtain ⟨dd, e⟩ := v
      rw [hf] at h
      have h2 : (if t < e then some dd else none) = some d := h
      by_cases hlt : t < e
      · rw [if_pos hlt] at h2
        cases h2
        simp [physStatus, hf]
      · rw [if_neg hlt] at h2
        exact absurd h2 (by simp)

theorem physStatus_applyWorkerOp (id : String) (st : SagaStore) (op : WorkerOp) :
    physStatus id (applyWorkerOp id st op) = physStatus id st
      ∨ ∃ w, WorkerOp.writtenStatus op = some w
          ∧ physStatus id (applyWorkerOp id st op) = some w := by
  cases op with
  | wStore r s t =>
      right
      refine ⟨finalStatusOf r s, rfl, ?_⟩
      show physStatus id (storeResult st id r s t) = _
      simp [storeResult, redisSetex, physStatus, storeFind_storeSet_self]
  | wUpdate p s t =>
      have hshow : applyWorkerOp id st (.wUpdate p s t) = updateResult st id p s t := rfl
      rw [hshow, updateResult]
      cases hg : redisGet st id t with
      | none => left; rfl
      | some d =>
          have hphys : physStatus id st = some d.status := physStatus_of_redisGet hg
          cases s with
          | none =>
              left
              simp only [redisSetex, physStatus, storeFind_storeSet_self, Option.map_some]
              exact hphys.symm
          | some str =>
              by_cases hemp : str.isEmpty
              · left
                simp only [redisSetex, physStatus, storeFind_storeSet_self,
                  Option.map_some, hemp, if_true]
                exact hphys.symm
              · right
                refine ⟨str, by simp [WorkerOp.writtenStatus], ?_⟩
                simp [redisSetex, physStatus, storeFind_storeSet_self, hemp]

theorem writtenStatus_terminal {op : WorkerOp}
    (h : callerStatus op.statusArg) :
    op.writtenStatus = none
      ∨ ∃ v, op.writtenStatus = some v ∧ isTerminal v = true := by
  cases op with
  | wUpdate p s t =>
      rcases h with h | h | h
      · left; simpa [WorkerOp.statusArg] using h
      · right
        refine ⟨"completed", ?_, by decide⟩
        simp [WorkerOp.statusArg] at h
        simp [WorkerOp.writtenStatus, h]
      · right
        refine ⟨"error", ?_, by decide⟩
        simp [WorkerOp.statusArg] at h
        simp [WorkerOp.writtenStatus, h]
  | wStore r s t =>
      right
      rcases h with h | h | h <;> simp [WorkerOp.statusArg] at h
      · refine ⟨finalStatusOf r s, rfl, ?_⟩
        rw [h]
        unfold finalStatusOf defaultFinalStatus
        by_cases hs : pyTruthy (dictGetD r "success" (.vBool false)) <;> simp [hs, isTerminal]
      · refine ⟨"completed", ?_, by decide⟩
        simp only [WorkerOp.writtenStatus, h, finalStatusOf, Option.some.injEq]
        rw [if_neg (by decide)]
      · refine ⟨"error", ?_, by decide⟩
        simp only [WorkerOp.writtenStatus, h, finalStatusOf, Option.some.injEq]
        rw [if_neg (by decide)]

theorem physStatus_step_some {id : String} {st : SagaStore} {x : String}
    (op : WorkerOp) (hst : physStatus id st = some x) :
    ∃ y, physStatus id (applyWorkerOp id st op) = some y
      ∧ (y = x ∨ WorkerOp.writtenStatus op = some y) := by
  rcases physStatus_applyWorkerOp id st op with h | ⟨w, hw, h⟩
  · exact ⟨x, by rw [h, hst], Or.inl rfl⟩
  · exact ⟨w, h, Or.inr hw⟩

theorem trace_all_terminal {id : String} :
    ∀ (ops : List WorkerOp) (st : SagaStore) (x : String),
      (∀ op ∈ ops, callerStatus op.statusArg) →
      physStatus id st = some x → isTerminal x = true →
      ∀ y ∈ (statesFrom id st ops).map (physStatus id),
        ∃ v, y = some v ∧ isTerminal v = true := by
  intro ops
  induction ops with
  | nil =>
      intro st x _ hst hterm y hy
      simp [statesFrom] at hy
      exact ⟨x, by rw [hy, hst], hterm⟩
  | cons op ops ih =>
      intro st x hops hst hterm y hy
      rw [show statesFrom id st (op :: ops)
            = st :: statesFrom id (applyWorkerOp id st op) ops from rfl] at hy
      simp only [List.map_cons, List.mem_cons] at hy
      rcases hy with hy | hy
      · exact ⟨x, by rw [hy, hst], hterm⟩
      · obtain ⟨x', hx', hdis⟩ := physStatus_step_some op hst
        have hterm' : isTerminal x' = true := by
          rcases hdis with h | h
          · rw [h]; exact hterm
          · rcases writtenStatus_terminal (hops op (by simp)) with hn | ⟨v, hv, hvt⟩
            · rw [hn] at h; exact absurd h (by simp)
            · rw [hv] at h
              cases h
              exact hvt
        exact ih (applyWorkerOp id st op) x'
          (fun o ho => hops o (by simp [ho])) hx' hterm' y hy

theorem trace_all_allowed {id : String} :
    ∀ (ops : List WorkerOp) (st : SagaStore) (x : String),
      (∀ op ∈ ops, callerStatus op.statusArg) →
      physStatus id st = some x → (x = "pending" ∨ isTerminal x = true) →
      ∀ y ∈ (statesFrom id st ops).map (physStatus id),
        ∃ v, y = some v ∧ (v = "pending" ∨ isTerminal v = true) := by
  intro ops
  induction ops with
  | nil =>
      intro st x _ hst hall y hy
      simp [statesFrom] at hy
      exact ⟨x, by rw [hy, hst], hall⟩
  | cons op ops ih =>
      intro st x hops hst hall y hy
      rw [show statesFrom id st (op :: ops)
            = st :: statesFrom id (applyWorkerOp id st op) ops from rfl] at hy
      simp only [List.map_cons, List.mem_cons] at hy
      rcases hy with hy | hy
      · exact ⟨x, by rw [hy, hst], hall⟩
      · obtain ⟨x', hx', hdis⟩ := physStatus_step_some op hst
        have hall' : x' = "pending" ∨ isTerminal x' = true := by
          rcases hdis with h | h
          · rw [h]; exact hall
          · rcases writtenStatus_terminal (hops op (by simp)) with hn | ⟨v, hv, hvt⟩
            · rw [hn] at h; exact absurd h (by simp)
            · rw [hv] at h
              cases h
              exact Or.inr hvt
        exact ih (applyWorkerOp id st op) x'
          (fun o ho => hops o (by simp [ho])) hx' hall' y hy

theorem trace_pairwise {id : String} :
    ∀ (ops : List WorkerOp) (st : SagaStore) (x : String),
      (∀ op ∈ ops, callerStatus op.statusArg) →
      physStatus id st = some x →
      List.Pairwise
        (fun a b => (∃ v, a = some v ∧ isTerminal v = true) →
          ∃ w, b = some w ∧ isTerminal w = true)
        ((statesFrom id st ops).map (physStatus id)) := by
  intro ops
  induction ops with
  | nil =>
      intro st x _ _
      simp [statesFrom]
  | cons op ops ih =>
      intro st x hops hst
      rw [show statesFrom id st (op :: ops)
            = st :: statesFrom id (applyWorkerOp id st op) ops from rfl]
      simp only [List.map_cons]
      obtain ⟨x', hx', hdis⟩ := physStatus_step_some op hst
      refine List.Pairwise.cons ?_
        (ih (applyWorkerOp id st op) x' (fun o ho => hops o (by simp [ho])) hx')
      intro y hy hterm
      obtain ⟨v, hv, hvt⟩ := hterm
      rw [hst] at hv
      cases hv
      have hterm' : isTerminal x' = true := by
        rcases hdis with h | h
        · rw [h]; exact hvt
        · rcases writtenStatus_terminal (hops op (by simp)) with hn | ⟨w, hw, hwt⟩
          · rw [hn] at h; exact absurd h (by simp)
          · rw [hw] at h
            cases h
            exact hwt
      exact trace_all_terminal ops (applyWorkerOp id st op) x'
        (fun o ho => hops o (by simp [ho])) hx' hterm' y hy

theorem trace_const_terminal {id : String} {v : String} :
    ∀ (ops : List WorkerOp) (st : SagaStore),
      (∀ op ∈ ops, op.writtenStatus = none ∨ op.writtenStatus = some v) →
      physStatus id st = some v →
      (statesFrom id st ops).map (physStatus id)
        = List.replicate (ops.length + 1) (some v) := by
  intro ops
  induction ops with
  | nil =>
      intro st _ hst
      simp [statesFrom, hst]
  | cons op ops ih =>
      intro st hops hst
      rw [show statesFrom id st (op :: ops)
            = st :: statesFrom id (applyWorkerOp id st op) ops from rfl]
      obtain ⟨x', hx', hdis⟩ := physStatus_step_some op hst
      have hx'v : x' = v := by
        rcases hdis with h | h
        · exact h
        · rcases hops op (by simp) with hn | hs
          · rw [hn] at h; exact absurd h (by simp)
          · rw [hs] at h
            cases h
            rfl
      subst hx'v
      have htail := ih (applyWorkerOp id st op)
        (fun o ho => hops o (by simp [ho])) hx'
      simp only [List.map_cons, htail, hst]
      rw [show (op :: ops).length + 1 = (ops.length + 1) + 1 by simp]
      simp [List.replicate_succ]

theorem trace_from_pending {id : String} {v : String} :
    ∀ (ops : List WorkerOp) (st : SagaStore),
      (∀ op ∈ ops, op.writtenStatus = none ∨ op.writtenStatus = some v) →
      physStatus id st = some "pending" →
      ∃ k m, (statesFrom id st ops).map (physStatus id)
          = List.replicate k (some "pending") ++ List.replicate m (some v)
        ∧ 1 ≤ k := by
  intro ops
  induction ops with
  | nil =>
      intro st _ hst
      refine ⟨1, 0, ?_, by omega⟩
      simp [statesFrom, hst]
  | cons op ops ih =>
      intro st hops hst
      rw [show statesFrom id st (op :: ops)
            = st :: statesFrom id (applyWorkerOp id st op) ops from rfl]
      simp only [List.map_cons, hst]
      obtain ⟨x', hx', hdis⟩ := physStatus_step_some op hst
      have hx'cases : x' = "pending" ∨ x' = v := by
        rcases hdis with h | h
        · exact Or.inl h
        · rcases hops op (by simp) with hn | hs
          · rw [hn] at h; exact absurd h (by simp)
          · rw [hs] at h
            cases h
            exact Or.inr rfl
      rcases hx'cases with hp | hv
      · subst hp
        obtain ⟨k, m, htail, hk⟩ := ih (applyWorkerOp id st op)
          (fun o ho => hops o (by simp [ho])) hx'
        refine ⟨k + 1, m, ?_, by omega⟩
        rw [htail, List.replicate_succ]
        simp
      · subst hv
        have htail := trace_const_terminal ops (applyWorkerOp id st op)
          (fun o ho => hops o (by simp [ho])) hx'
        refine ⟨1, ops.length + 1, ?_, by omega⟩
        rw [htail]
        simp [List.replicate_succ]

theorem physStatus_markPending (id : String) (ini : List (String × PyObj))
    (t0 : Nat) : physStatus id (markPending [] id ini t0) = some "pending" := by
  simp [markPending, redisSetex, storeSet, storeFind, physStatus]

/-- Claim C1: along any saga trace — `mark_pending` at submission on a
fresh id, followed by the worker `update_result`/`store_result` operations
with the status arguments the callers actually pass — (i) every stored
status is pending, completed or error; (ii) once a terminal status is
stored, every later stored status is terminal, so no operation transitions
the stored status back to pending; (iii) when all status-writing
operations of the trace carry the same terminal value `v` (the spec's
determinism of redelivered steps), the stored status sequence is literally
a block of `pending` followed by a block of `v` — a prefix of
`pending, (completed | error)` up to idempotent overwrites. -/
theorem saga_status_lifecycle :
    (∀ (id : String) (ini : List (String × PyObj)) (t0 : Nat)
        (ops : List WorkerOp),
      (∀ op ∈ ops, callerStatus op.statusArg) →
      ∀ y ∈ sagaStatusTrace id ini t0 ops,
        ∃ v, y = some v ∧ (v = "pending" ∨ isTerminal v = true))
    ∧ (∀ (id : String) (ini : List (String × PyObj)) (t0 : Nat)
        (ops : List WorkerOp),
      (∀ op ∈ ops, callerStatus op.statusArg) →
      List.Pairwise
        (fun a b => (∃ v, a = some v ∧ isTerminal v = true) →
          ∃ w, b = some w ∧ isTerminal w = true)
        (sagaStatusTrace id ini t0 ops))
    ∧ (∀ (id : String) (ini : List (String × PyObj)) (t0 : Nat)
        (ops : List WorkerOp) (v : String),
      isTerminal v = true →
      (∀ op ∈ ops, op.writtenStatus = none ∨ op.writtenStatus = some v) →
      ∃ k m, sagaStatusTrace id ini t0 ops
          = List.replicate k (some "pending") ++ List.replicate m (some v)
        ∧ 1 ≤ k) := by
  refine ⟨?_, ?_, ?_⟩
  · intro id ini t0 ops hops y hy
    exact trace_all_allowed ops (markPending [] id ini t0) "pending" hops
      (physStatus_markPending id ini t0) (Or.inl rfl) y hy
  · intro id ini t0 ops hops
    exact trace_pairwise ops (markPending [] id ini t0) "pending" hops
      (physStatus_markPending id ini t0)
  · intro id ini t0 ops v _ hops
    exact trace_from_pending ops (markPending [] id ini t0) hops
      (physStatus_markPending id ini t0)

/-- Witness for `saga_status_lifecycle`: a saga that is updated once and
then receives two identical terminal error writes. -/
theorem saga_status_lifecycle_witness :
    ∃ k m, sagaStatusTrace "s" [] 0
        [WorkerOp.wUpdate [("generated_sql", PyObj.vStr "SELECT 1")] none 1,
         WorkerOp.wStore [("success", PyObj.vBool false)] (some "error") 2,
         WorkerOp.wStore [("success", PyObj.vBool false)] (some "error") 3]
      = List.replicate k (some "pending") ++ List.replicate m (some "error")
      ∧ 1 ≤ k :=
  saga_status_lifecycle.2.2 "s" [] 0
    [WorkerOp.wUpdate [("generated_sql", PyObj.vStr "SELECT 1")] none 1,
     WorkerOp.wStore [("success", PyObj.vBool false)] (some "error") 2,
     WorkerOp.wStore [("success", PyObj.vBool false)] (some "error") 3]
    "error" (by decide) (by decide)

/-- The externally visible actions a worker handler performs while
processing one delivery, in program order: a broker publish to a named
queue, a state-store write (`store_result` or `update_result`, with the
status argument used), and the final broker ack or nack. -/
inductive SagaEvent where
  | publish (queue : String)
  | storeWrite (method : String) (status : Option String)
  | ack
  | nack
deriving DecidableEq

/-- The event sequence of `store_saga_error` (saga/utils.py, lines
91-149): append the error entry to the call stack (no external effect),
`store_result` with status error, then publish to the error queue. -/
def storeSagaErrorEvents : List SagaEvent :=
  [.storeWrite "store_result" (some "error"), .publish "query_error"]

/-- The three outcomes of the generate worker's handler. -/
inductive GenOutcome where
  | outOfScope
  | genSuccess
  | genFailure

/-- Event order of `process_query_generation`
(query_generator_consumer.py, lines 124-250): out-of-scope → store error
state, publish error, ack (lines 165-185); success → publish the Generated
message (line 228), then `update_saga_state` (line 230), then ack (line
232); exception → store error state, publish error, nack (lines 234-250). -/
def processQueryGenerationEvents : GenOutcome → List SagaEvent
  | .outOfScope => storeSagaErrorEvents ++ [.ack]
  | .genSuccess =>
      [.publish "query_execute_query", .storeWrite "update_result" none, .ack]
  | .genFailure => storeSagaErrorEvents ++ [.nack]

/-- The three outcomes of the execute worker's handler. -/
inductive ExecOutcome where
  | execFailed
  | execSuccess
  | execException

/-- Event order of `process_query_execution`
(src/agentic_sql/saga/consumers/query_executor_consumer.py, lines 19-154):
execution failure → publish the error message, ack (lines 70-74, no state
write); success → publish the Executed message (line 107), then
`update_result` (line 112), then ack (line 118); exception → publish the
error message, nack (lines 120-154). -/
def processQueryExecutionEvents : ExecOutcome → List SagaEvent
  | .execFailed => [.publish "query_error", .ack]
  | .execSuccess =>
      [.publish "query_format_result", .storeWrite "update_result" none, .ack]
  | .execException => [.publish "query_error", .nack]

/-- The two outcomes of the format worker's handler. -/
inductive FormatOutcome where
  | formatSuccess
  | formatException

/-- Event order of `process_result_formatting`
(result_formatter_consumer.py, lines 86-189): success → `update_saga_state`
with status completed (line 166), then ack (line 172); exception → store
error state, publish error, nack (lines 174-189). -/
def processResultFormattingEvents : FormatOutcome → List SagaEvent
  | .formatSuccess => [.storeWrite "update_result" (some "completed"), .ack]
  | .formatException => storeSagaErrorEvents ++ [.nack]

/-- A publish of a successor step message (the execute or format queue, as
opposed to the error queue). -/
def isSuccessorPublish : SagaEvent → Bool
  | .publish q => q == "query_execute_query" || q == "query_format_result"
  | _ => false

/-- Any state-store write. -/
def isStoreWrite : SagaEvent → Bool
  | .storeWrite _ _ => true
  | _ => false

/-- A state-store write carrying a terminal status. -/
def isTerminalWrite : SagaEvent → Bool
  | .storeWrite _ (some s) => isTerminal s
  | _ => false

/-- The final ack of the delivery. -/
def isAckEvent : SagaEvent → Bool
  | .ack => true
  | _ => false

/-- The final nack of the delivery. -/
def isNackEvent : SagaEvent → Bool
  | .nack => true
  | _ => false

/-- Claim C2, counterexample: on the generate worker's success path the
successor message is published strictly before the predecessor step's
state update, and the execute worker behaves the same way — the claim's
ordering (state write first, then publish) fails on both handlers. -/
theorem publish_before_state_write_counterexample :
    ¬ ((processQueryGenerationEvents .genSuccess).findIdx isStoreWrite
         < (processQueryGenerationEvents .genSuccess).findIdx isSuccessorPublish)
    ∧ ¬ ((processQueryExecutionEvents .execSuccess).findIdx isStoreWrite
         < (processQueryExecutionEvents .execSuccess).findIdx isSuccessorPublish) := by
  decide

/-- Claim C2, amended: on every non-terminal step completion the successor
message is published first, the predecessor step's state update is written
second, and the broker ack comes last — publish and state write both
happen before the ack, but in the opposite mutual order to the one
claimed; the generate and format workers write the terminal state before
their ack/nack on every terminal outcome, while the execute worker's
execution-failure path acks after publishing the error message without any
state-store write at all. -/
theorem worker_effect_order_amended :
    ((processQueryGenerationEvents .genSuccess).findIdx isSuccessorPublish
        < (processQueryGenerationEvents .genSuccess).findIdx isStoreWrite
      ∧ (processQueryGenerationEvents .genSuccess).findIdx isStoreWrite
        < (processQueryGenerationEvents .genSuccess).findIdx isAckEvent)
    ∧ ((processQueryExecutionEvents .execSuccess).findIdx isSuccessorPublish
        < (processQueryExecutionEvents .execSuccess).findIdx isStoreWrite
      ∧ (processQueryExecutionEvents .execSuccess).findIdx isStoreWrite
        < (processQueryExecutionEvents .execSuccess).findIdx isAckEvent)
    ∧ ((processQueryGenerationEvents .outOfScope).findIdx isTerminalWrite
        < (processQueryGenerationEvents .outOfScope).findIdx isAckEvent)
    ∧ ((processQueryGenerationEvents .genFailure).findIdx isTerminalWrite
        < (processQueryGenerationEvents .genFailure).findIdx isNackEvent)
    ∧ ((processResultFormattingEvents .formatSuccess).findIdx isTerminalWrite
        < (processResultFormattingEvents .formatSuccess).findIdx isAckEvent)
    ∧ ((processResultFormattingEvents .formatException).findIdx isTerminalWrite
        < (processResultFormattingEvents .formatException).findIdx isNackEvent)
    ∧ (processQueryExecutionEvents .execFailed).all (fun e => !isStoreWrite e)
    ∧ ((processQueryExecutionEvents .execFailed).findIdx
          (fun e => e == .publish "query_error")
        < (processQueryExecutionEvents .execFailed).findIdx isAckEvent) := by
  decide

/-- One `CallStackEntry` (messages.py, lines 14-29). -/
structure CallStackEntry where
  step_name : String
  timestamp : String
  duration_ms : Option Rat
  status : String
  metadata : List (String × PyObj)

/-- `SagaBaseMessage.add_to_call_stack` (messages.py, lines 56-75):
append one entry; the automatic tool-call draining only affects
`metadata`, which is passed here already assembled. -/
def addToCallStack (stack : List CallStackEntry) (stepName timestamp : String)
    (durationMs : Option Rat) (status : String)
    (metadata : List (String × PyObj)) : List CallStackEntry :=
  stack ++ [⟨stepName, timestamp, durationMs, status, metadata⟩]

/-- The call stack after submission: `query_user_database_async` adds the
entry `api_request_received` with status success (api.py, lines 84-90). -/
def apiRequestCallStack (ts : String) (md : List (String × PyObj)) :
    List CallStackEntry :=
  addToCallStack [] "api_request_received" ts none "success" md

/-- The generate worker's successful step appends
`generate_query_agentic`/success after copying the predecessor stack
(query_generator_consumer.py, lines 202-217). -/
def generatorSuccessCallStack (prev : List CallStackEntry) (ts : String)
    (d : Rat) (md : List (String × PyObj)) : List CallStackEntry :=
  addToCallStack prev "generate_query_agentic" ts (some d) "success" md

/-- The execute worker's successful step appends `execute_query`/success
after copying the predecessor stack
(src/agentic_sql/saga/consumers/query_executor_consumer.py, lines 95-103). -/
def executorSuccessCallStack (prev : List CallStackEntry) (ts : String)
    (d : Rat) (md : List (String × PyObj)) : List CallStackEntry :=
  addToCallStack prev "execute_query" ts (some d) "success" md

/-- The format worker's successful (terminal) step appends
`format_result_agentic`/success after copying the predecessor stack
(result_formatter_consumer.py, lines 126-142). -/
def formatterSuccessCallStack (prev : List CallStackEntry) (ts : String)
    (d : Rat) (md : List (String × PyObj)) : List CallStackEntry :=
  addToCallStack prev "format_result_agentic" ts (some d) "success" md

/-- The `result.call_stack` of a saga that reaches status completed: the
composition of the four appends along the pipeline. -/
def completedSagaCallStack (ts0 ts1 ts2 ts3 : String) (d1 d2 d3 : Rat)
    (m0 m1 m2 m3 : List (String × PyObj)) : List CallStackEntry :=
  formatterSuccessCallStack
    (executorSuccessCallStack
      (generatorSuccessCallStack (apiRequestCallStack ts0 m0) ts1 d1 m1)
      ts2 d2 m2)
    ts3 d3 m3

/-- Claim C4, counterexample: the call stack of a completed saga has four
entries, not three, and its step names are not
`["generate_query_agentic","execute_query_agentic","format_result_agentic"]`
(the execute step is recorded as `execute_query` and the submission entry
`api_request_received` is part of the stack). -/
theorem completed_call_stack_counterexample :
    ¬ ((completedSagaCallStack "t0" "t1" "t2" "t3" 1 2 3 [] [] [] []).length = 3
      ∧ (completedSagaCallStack "t0" "t1" "t2" "t3" 1 2 3 [] [] [] []).map
          CallStackEntry.step_name
        = ["generate_query_agentic", "execute_query_agentic",
           "format_result_agentic"]) := by
  decide

/-- Claim C4, amended: a completed saga's `result.call_stack` contains
exactly one entry per step in execution order, each with status success,
but it has four entries — the submission entry plus the three worker
steps — and its step names are
`["api_request_received","generate_query_agentic","execute_query",
"format_result_agentic"]`. -/
theorem completed_call_stack_shape (ts0 ts1 ts2 ts3 : String) (d1 d2 d3 : Rat)
    (m0 m1 m2 m3 : List (String × PyObj)) :
    (completedSagaCallStack ts0 ts1 ts2 ts3 d1 d2 d3 m0 m1 m2 m3).map
        CallStackEntry.step_name
      = ["api_request_received", "generate_query_agentic", "execute_query",
         "format_result_agentic"]
    ∧ (completedSagaCallStack ts0 ts1 ts2 ts3 d1 d2 d3 m0 m1 m2 m3).length = 4
    ∧ ∀ e ∈ completedSagaCallStack ts0 ts1 ts2 ts3 d1 d2 d3 m0 m1 m2 m3,
        e.status = "success" := by
  refine ⟨by rfl, by rfl, ?_⟩
  intro e he
  simp [completedSagaCallStack, formatterSuccessCallStack,
    executorSuccessCallStack, generatorSuccessCallStack, apiRequestCallStack,
    addToCallStack] at he
  rcases he with h | h | h | h <;> rw [h]

/-- Result record of `GenericMCPClient.call_tool` (core/mcp/client.py,
lines 94-99). -/
structure MCPToolResult where
  success : Bool
  content : String
  error : Option String

/-- What one attempt of the retry loop observes: the session call returned
(with its optional `isError` flag and collected text content), timed out,
or raised an exception rendered as `msg`. -/
inductive AttemptOutcome where
  | ok (isError : Option Bool) (content : String)
  | timeout
  | exc (msg : String)

/-- The retry loop of `call_tool` (core/mcp/client.py, lines 139-176):
`for attempt in range(retries + 1)` with an early return on success, a
final-attempt return of the timeout or exception error, and a fallthrough
`Unknown error` result. The outcome of attempt `i` is supplied by `f`. -/
def callToolAttempts (retries : Nat) (f : Nat → AttemptOutcome) :
    List Nat → MCPToolResult
  | [] => { success := false, content := "", error := some "Unknown error" }
  | i :: rest =>
      match f i with
      | .ok isErr content =>
          { success := match isErr with
              | some b => !b
              | none => true,
            content := content, error := none }
      | .timeout =>
          if i == retries then
            { success := false, content := "", error := some "MCP call timed out" }
          else callToolAttempts retries f rest
      | .exc m =>
          if i == retries then
            { success := false, content := "", error := some m }
          else callToolAttempts retries f rest

/-- `GenericMCPClient.call_tool` with its hard-coded `retries = 2`
(line 139): at most three attempts. -/
def callTool (f : Nat → AttemptOutcome) : MCPToolResult :=
  callToolAttempts 2 f (List.range 3)

/-- Python `f"Error: {result.error}"` (line 384). -/
def renderError : Option String → String
  | some e => "Error: " ++ e
  | none => "Error: None"

/-- `DynamicMCPManager._run_tool_sync` (core/mcp/client.py, lines 365-393)
along the shared-loop dispatch path: the binding returns the collected
content on success and the string `Error: <reason>` on failure; both
surrounding `except` blocks also return `Error: <exception>` strings, so
the binding returns a string in every case instead of raising. -/
def runToolSync (f : Nat → AttemptOutcome) : String :=
  let result := callTool f
  if result.success then result.content else renderError result.error

/-- Claim C5: the tool binding retries a failed `call_tool` up to twice
(the result is determined by the first three attempt outcomes, and a first
successful attempt short-circuits), on final failure it returns a string
of the form `Error: <reason>` to the caller, and when every attempt times
out it returns exactly `Error: MCP call timed out`. -/
theorem tool_binding_error_contract :
    (∀ f : Nat → AttemptOutcome, (∀ i, i < 3 → f i = .timeout) →
        runToolSync f = "Error: MCP call timed out")
    ∧ (∀ f : Nat → AttemptOutcome, (callTool f).success = false →
        ∃ reason, runToolSync f = "Error: " ++ reason)
    ∧ (∀ f g : Nat → AttemptOutcome, (∀ i, i < 3 → f i = g i) →
        callTool f = callTool g)
    ∧ (∀ (f : Nat → AttemptOutcome) (content : String),
        f 0 = .ok none content →
          callTool f = { success := true, content := content, error := none }) := by
  refine ⟨?_, ?_, ?_, ?_⟩
  · intro f h
    have h0 := h 0 (by omega)
    have h1 := h 1 (by omega)
    have h2 := h 2 (by omega)
    simp [runToolSync, callTool, show List.range 3 = [0, 1, 2] from rfl,
      callToolAttempts, h0, h1, h2, renderError]
  · intro f hf
    unfold runToolSync
    cases herr : (callTool f).error with
    | some e => exact ⟨e, by simp [hf, herr, renderError]⟩
    | none => exact ⟨"None", by simp [hf, herr, renderError]⟩
  · intro f g h
    have h0 := h 0 (by omega)
    have h1 := h 1 (by omega)
    have h2 := h 2 (by omega)
    simp [callTool, show List.range 3 = [0, 1, 2] from rfl,
      callToolAttempts, h0, h1, h2]
  · intro f content h0
    simp [callTool, show List.range 3 = [0, 1, 2] from rfl,
      callToolAttempts, h0]

/-- Witness for `tool_binding_error_contract`: all attempts time out. -/
theorem tool_binding_error_contract_witness :
    runToolSync (fun _ => AttemptOutcome.timeout) = "Error: MCP call timed out" :=
  tool_binding_error_contract.1 (fun _ => .timeout) (fun _ _ => rfl)

/-- One registered provider (mcp-registry/main.py, lines 18-23). -/
structure MCPServerInfo where
  name : String
  url : String
  last_seen : Nat
  status : String
  is_static : Bool
deriving DecidableEq

/-- The registry's Redis hash `mcp_servers`, keyed by provider url. -/
abbrev Registry := List (String × MCPServerInfo)

/-- Redis HSET on the hash: overwrite the field if present, else append. -/
def hsetServer : Registry → String → MCPServerInfo → Registry
  | [], k, v => [(k, v)]
  | (k2, w) :: rest, k, v =>
      if k2 == k then (k, v) :: rest else (k2, w) :: hsetServer rest k v

/-- Field lookup on the hash. -/
def regFind : Registry → String → Option MCPServerInfo
  | [], _ => none
  | (k, v) :: rest, url => if k == url then some v else regFind rest url

/-- `POST /register` (main.py, lines 31-39): refresh `last_seen`, mark
healthy, upsert keyed by `url`. -/
def registerServer (reg : Registry) (payload : MCPServerInfo) (now : Nat) :
    Registry :=
  hsetServer reg payload.url
    { payload with last_seen := now, status := "healthy" }

/-- Outcome of the health probe `GET <base>/health`. -/
inductive HealthResult where
  | response (code : Nat)
  | transportError (msg : String)

/-- The status string `monitor_servers` computes (main.py, lines 124-133):
`healthy` only for a 200 response, `unhealthy (<code>)` for every other
response code, `error: <reason>` on a transport error. -/
def newStatus : HealthResult → String
  | .response c =>
      if c == 200 then "healthy" else "unhealthy (" ++ toString c ++ ")"
  | .transportError m => "error: " ++ m

/-- The `last_seen` refresh inside the probe (line 129): only a 200
response updates it. -/
def monitorProbe (s : MCPServerInfo) (h : HealthResult) (now : Nat) :
    MCPServerInfo :=
  match h with
  | .response c => if c == 200 then { s with last_seen := now } else s
  | .transportError _ => s

/-- One provider's transition in a monitor cycle (main.py, lines 119-150):
healthy → save with refreshed `last_seen`; otherwise a static provider is
kept with only the status updated, a dynamic one is deleted (`none`). -/
def monitorOne (s : MCPServerInfo) (h : HealthResult) (now : Nat) :
    Option MCPServerInfo :=
  if newStatus h == "healthy" then
    some { monitorProbe s h now with status := newStatus h }
  else if s.is_static then
    some { monitorProbe s h now with status := newStatus h }
  else none

/-- One full monitor cycle over the registry snapshot (`hgetall` followed
by per-field `hset`/`hdel`). -/
def monitorCycle (reg : Registry) (health : String → HealthResult)
    (now : Nat) : Registry :=
  reg.filterMap
    (fun kv => (monitorOne kv.2 (health kv.1) now).map (fun s => (kv.1, s)))

/-- Number of registry entries for a url. -/
def countUrl (reg : Registry) (url : String) : Nat :=
  reg.countP (fun kv => kv.1 == url)

/-- Well-formedness mirroring the Redis hash: field keys are distinct. -/
def regWf (reg : Registry) : Prop := (reg.map Prod.fst).Nodup

theorem monitorOne_static_isSome {s : MCPServerInfo} (hs : s.is_static = true)
    (h : HealthResult) (now : Nat) : ∃ s2, monitorOne s h now = some s2 := by
  unfold monitorOne
  by_cases hb : newStatus h == "healthy"
  · exact ⟨_, by rw [if_pos hb]⟩
  · exact ⟨_, by rw [if_neg hb, hs, if_pos rfl]⟩

theorem monitorProbe_of_not_healthy {s : MCPServerInfo} {h : HealthResult}
    {now : Nat} (hne : newStatus h ≠ "healthy") : monitorProbe s h now = s := by
  cases h with
  | transportError m => rfl
  | response c =>
      by_cases hc : c == 200
      · exact absurd (by simp [newStatus, hc]) hne
      · simp [monitorProbe, hc]

/-- Claim C6, counterexample: a 204 response — a 2xx success — does not
mark the provider healthy; it is rendered `unhealthy (204)` and a dynamic
provider is deleted from the registry by the monitor. -/
theorem monitor_2xx_counterexample :
    monitorOne
        { name := "db", url := "http://db:9090/sse", last_seen := 0,
          status := "healthy", is_static := false }
        (.response 204) 7 = none
      ∧ newStatus (.response 204) = "unhealthy (204)" := by
  constructor
  · rfl
  · rfl

/-- Claim C6, amended: only a 200 response from the provider's `/health`
endpoint sets status healthy and refreshes `last_seen`; any other response
code or a transport error yields status `unhealthy (<code>)` or
`error: <reason>`, after which a dynamic provider is deleted while a
static provider is kept with only its status updated, and a static
provider is never removed by a monitor cycle. -/
theorem monitor_health_transitions :
    (∀ (s : MCPServerInfo) (now : Nat),
        monitorOne s (.response 200) now
          = some { s with status := "healthy", last_seen := now })
    ∧ (∀ (s : MCPServerInfo) (h : HealthResult) (now : Nat),
        newStatus h ≠ "healthy" →
          monitorOne s h now
            = if s.is_static then some { s with status := newStatus h }
              else none)
    ∧ (∀ (s : MCPServerInfo) (h : HealthResult) (now : Nat),
        s.is_static = true → monitorOne s h now ≠ none)
    ∧ (∀ (reg : Registry) (health : String → HealthResult) (now : Nat)
          (url : String) (s : MCPServerInfo),
        regFind reg url = some s → s.is_static = true →
          ∃ s2, regFind (monitorCycle reg health now) url = some s2) := by
  refine ⟨?_, ?_, ?_, ?_⟩
  · intro s now
    rfl
  · intro s h now hne
    have hb : (newStatus h == "healthy") = false := by simp [hne]
    unfold monitorOne
    rw [hb, monitorProbe_of_not_healthy hne]
    simp
  · intro s h now hs
    obtain ⟨s2, hs2⟩ := monitorOne_static_isSome hs h now
    rw [hs2]
    simp
  · intro reg health now url s hfind hs
    induction reg with
    | nil => simp [regFind] at hfind
    | cons kv rest ih =>
        obtain ⟨k, v⟩ := kv
        by_cases hk : k = url
        · subst hk
          rw [regFind, if_pos (by simp)] at hfind
          cases hfind
          obtain ⟨s2, hs2⟩ := monitorOne_static_isSome hs (health k) now
          refine ⟨s2, ?_⟩
          simp only [monitorCycle, List.filterMap_cons, hs2, Option.map_some]
          simp [regFind]
        · have hkb : (k == url) = false := by simp [hk]
          rw [regFind, hkb] at hfind
          simp only [Bool.false_eq_true, if_false] at hfind
          obtain ⟨s2, hs2⟩ := ih hfind
          cases hm : monitorOne v (health k) now with
          | none =>
              refine ⟨s2, ?_⟩
              simp only [monitorCycle, List.filterMap_cons, hm]
              exact hs2
          | some w =>
              refine ⟨s2, ?_⟩
              simp only [monitorCycle, List.filterMap_cons, hm, Option.map_some]
              simp only [regFind, hkb, Bool.false_eq_true, if_false]
              exact hs2

/-- Witness for `monitor_health_transitions`: a static provider probed
with a 503 response keeps its entry with only the status updated. -/
theorem monitor_health_transitions_witness :
    monitorOne
        { name := "db", url := "http://db:9090/sse", last_seen := 3,
          status := "healthy", is_static := true }
        (.response 503) 9
      = some { name := "db", url := "http://db:9090/sse", last_seen := 3,
               status := "unhealthy (503)", is_static := true } := by
  rw [monitor_health_transitions.2.1
    { name := "db", url := "http://db:9090/sse", last_seen := 3,
      status := "healthy", is_static := true }
    (.response 503) 9 (by decide)]
  rfl

theorem countUrl_eq_zero_of_not_mem {reg : Registry} {url : String}
    (h : url ∉ reg.map Prod.fst) : countUrl reg url = 0 := by
  induction reg with
  | nil => rfl
  | cons kv rest ih =>
      obtain ⟨k, v⟩ := kv
      simp only [List.map_cons, List.mem_cons] at h
      push_neg at h
      have hk : (k == url) = false := by simp; exact fun he => h.1 he.symm
      simp [countUrl, List.countP_cons, hk]
      have := ih h.2
      simpa [countUrl] using this

theorem keys_hsetServer {reg : Registry} {k : String} {v : MCPServerInfo}
    {x : String} (h : x ∈ (hsetServer reg k v).map Prod.fst) :
    x ∈ reg.map Prod.fst ∨ x = k := by
  induction reg with
  | nil =>
      simp [hsetServer] at h
      exact Or.inr h
  | cons kv rest ih =>
      obtain ⟨k2, w⟩ := kv
      by_cases hk : k2 = k
      · simp [hsetServer, hk] at h
        rcases h with h | h
        · exact Or.inr h
        · exact Or.inl (by simp [h])
      · have hb : (k2 == k) = false := by simp [hk]
        simp only [hsetServer, hb, Bool.false_eq_true, if_false,
          List.map_cons, List.mem_cons] at h
        rcases h with h | h
        · exact Or.inl (by simp [h])
        · rcases ih h with h2 | h2
          · exact Or.inl (by simp [h2])
          · exact Or.inr h2

theorem countUrl_cons (kv : String × MCPServerInfo) (rest : Registry)
    (url : String) :
    countUrl (kv :: rest) url
      = countUrl rest url + (if kv.1 == url then 1 else 0) := by
  simp [countUrl, List.countP_cons]

theorem regWf_hsetServer {reg : Registry} {k : String} {v : MCPServerInfo}
    (hwf : regWf reg) : regWf (hsetServer reg k v) := by
  induction reg with
  | nil => simp [regWf, hsetServer]
  | cons kv rest ih =>
      obtain ⟨k2, w⟩ := kv
      simp only [regWf, List.map_cons, List.nodup_cons] at hwf
      by_cases hk : k2 = k
      · subst hk
        simp only [hsetServer, beq_self_eq_true, if_true]
        simp [regWf, hwf.1, hwf.2]
      · have hb : (k2 == k) = false := by simp [hk]
        simp only [hsetServer, hb, Bool.false_eq_true, if_false]
        simp only [regWf, List.map_cons, List.nodup_cons]
        refine ⟨?_, ih hwf.2⟩
        intro hmem
        rcases keys_hsetServer hmem with h2 | h2
        · exact hwf.1 h2
        · exact hk h2

theorem countUrl_hsetServer_self {reg : Registry} {k : String}
    {v : MCPServerInfo} (hwf : regWf reg) :
    countUrl (hsetServer reg k v) k = 1 := by
  induction reg with
  | nil => simp [hsetServer, countUrl, List.countP_cons]
  | cons kv rest ih =>
      obtain ⟨k2, w⟩ := kv
      simp only [regWf, List.map_cons, List.nodup_cons] at hwf
      by_cases hk : k2 = k
      · subst hk
        simp only [hsetServer, beq_self_eq_true, if_true]
        rw [countUrl_cons]
        have h0 : countUrl rest k2 = 0 := countUrl_eq_zero_of_not_mem hwf.1
        simp [h0]
      · have hb : (k2 == k) = false := by simp [hk]
        simp only [hsetServer, hb, Bool.false_eq_true, if_false]
        rw [countUrl_cons]
        have h1 := ih hwf.2
        simp [h1, hb]

theorem monitorCycle_keys_sublist (reg : Registry)
    (health : String → HealthResult) (now : Nat) :
    ((monitorCycle reg health now).map Prod.fst).Sublist (reg.map Prod.fst) := by
  induction reg with
  | nil => simp [monitorCycle]
  | cons kv rest ih =>
      obtain ⟨k, v⟩ := kv
      cases hm : monitorOne v (health k) now with
      | none =>
          simp only [monitorCycle, List.filterMap_cons, hm, List.map_cons]
          exact ih.cons k
      | some s2 =>
          simp only [monitorCycle, List.filterMap_cons, hm, Option.map_some,
            List.map_cons]
          exact ih.cons₂ k

theorem regWf_monitorCycle {reg : Registry} {health : String → HealthResult}
    {now : Nat} (hwf : regWf reg) : regWf (monitorCycle reg health now) :=
  (monitorCycle_keys_sublist reg health now).nodup hwf

theorem countUrl_le_one {reg : Registry} (hwf : regWf reg) (url : String) :
    countUrl reg url ≤ 1 := by
  induction reg with
  | nil => simp [countUrl]
  | cons kv rest ih =>
      obtain ⟨k, v⟩ := kv
      simp only [regWf, List.map_cons, List.nodup_cons] at hwf
      by_cases hk : k = url
      · subst hk
        rw [countUrl_cons]
        have h0 : countUrl rest k = 0 := countUrl_eq_zero_of_not_mem hwf.1
        simp [h0]
      · have hb : (k == url) = false := by simp [hk]
        rw [countUrl_cons]
        have h1 := ih hwf.2
        simp [hb]
        omega

/-- Claim C8: from a well-formed registry (one hash field per url, the
shape Redis guarantees), registering a provider twice with the same url
leaves exactly one entry for that url in the listing; registration,
startup seeding (the same HSET) and the monitor cycle preserve
well-formedness, so at any time the registry holds at most one — and after
a registration exactly one — provider per endpoint url. -/
theorem registry_one_entry_per_url :
    (∀ (reg : Registry) (url : String) (p1 p2 : MCPServerInfo) (t1 t2 : Nat),
        regWf reg → p1.url = url → p2.url = url →
          countUrl (registerServer (registerServer reg p1 t1) p2 t2) url = 1)
    ∧ (∀ (reg : Registry) (p : MCPServerInfo) (t : Nat),
        regWf reg → regWf (registerServer reg p t))
    ∧ (∀ (reg : Registry) (health : String → HealthResult) (now : Nat),
        regWf reg → regWf (monitorCycle reg health now))
    ∧ (∀ (reg : Registry) (url : String), regWf reg → countUrl reg url ≤ 1)
    ∧ (∀ (reg : Registry) (p : MCPServerInfo) (t : Nat),
        regWf reg → countUrl (registerServer reg p t) p.url = 1) := by
  refine ⟨?_, ?_, ?_, ?_, ?_⟩
  · intro reg url p1 p2 t1 t2 hwf h1 h2
    subst h2
    exact countUrl_hsetServer_self (regWf_hsetServer hwf)
  · intro reg p t hwf
    exact regWf_hsetServer hwf
  · intro reg health now hwf
    exact regWf_monitorCycle hwf
  · intro reg url hwf
    exact countUrl_le_one hwf url
  · intro reg p t hwf
    exact countUrl_hsetServer_self hwf

/-- Witness for `registry_one_entry_per_url`: registering the same url
twice into the empty registry. -/
theorem registry_one_entry_per_url_witness :
    countUrl
      (registerServer
        (registerServer []
          { name := "db-a", url := "http://db:9090/sse", last_seen := 0,
            status := "unknown", is_static := false } 1)
        { name := "db-b", url := "http://db:9090/sse", last_seen := 0,
          status := "unknown", is_static := false } 2)
      "http://db:9090/sse" = 1 :=
  registry_one_entry_per_url.1 [] "http://db:9090/sse"
    { name := "db-a", url := "http://db:9090/sse", last_seen := 0,
      status := "unknown", is_static := false }
    { name := "db-b", url := "http://db:9090/sse", last_seen := 0,
      status := "unknown", is_static := false }
    1 2 (by simp [regWf]) rfl rfl
